import Mathlib

/-!
Shallow embedding of the humanitarian-chat messaging subsystem.

Embedded source files:
- `src/middleware/auth.js` (`canAccessGroup`)
- `src/unnamed/part_000` (SQLite schema in `config/database.js` and the
  message routes `routes/messages.js`)
- `src/server.js` (socket handlers `join-groups`, `send-message`, `mark-read`)
- `src/public/js/offline.js` (`OfflineManager`)

Machine integers are modelled as `Nat`; timestamps (`Date.now()`,
`CURRENT_TIMESTAMP`) are `Nat` clock parameters; SQL `NULL`able columns are
`Option`; fallible routes return `Except`.
-/

namespace HumanitarianChat

/-- A row of the `users` table (fields the embedded code reads:
`id`, `role`). `role` is the global role string
(`admin` / `field_staff` / `volunteer`). -/
structure User where
  id : Nat
  role : String
deriving DecidableEq

/-- A row of the `groups` table (fields read by the embedded code:
`id`, `created_by`). -/
structure Group where
  id : Nat
  createdBy : Nat
deriving DecidableEq

/-- A row of the `group_members` table; the schema declares
`UNIQUE(group_id, user_id)`. `role` is the group-scoped role
(`member` / `moderator` / `admin`). -/
structure Membership where
  groupId : Nat
  userId : Nat
  role : String
deriving DecidableEq

/-- A row of the `messages` table (columns used by the routes). -/
structure Message where
  id : Nat
  senderId : Nat
  groupId : Nat
  content : String
  msgType : String
  replyTo : Option Nat
deriving DecidableEq

/-- A row of the `message_tags` table. The schema has NO uniqueness
constraint on `(message_id, tag_type)`: only the surrogate primary key. -/
structure TagRow where
  messageId : Nat
  tagType : String
  tagValue : Option String
  createdBy : Nat
deriving DecidableEq

/-- A row of the `message_status` table; the schema declares
`UNIQUE(message_id, user_id)`. `delivered_at` has default
`CURRENT_TIMESTAMP`; `read_at` is nullable. -/
structure StatusRow where
  messageId : Nat
  userId : Nat
  deliveredAt : Option Nat
  readAt : Option Nat
deriving DecidableEq

/-- The durable SQLite store: one list of rows per table used by the
embedded routes, plus the `messages` AUTOINCREMENT counter. -/
structure DB where
  users : List User
  groups : List Group
  members : List Membership
  messages : List Message
  tags : List TagRow
  statuses : List StatusRow
  nextMessageId : Nat
deriving DecidableEq

/-- The membership-row lookup of `canAccessGroup`
(`src/middleware/auth.js:101-107`): `db.get` over
`group_members JOIN groups JOIN users` keyed by `(user_id, group_id)`;
`find?` models "first matching row or none". -/
def findMembership (db : DB) (userId groupId : Nat) : Option Membership :=
  db.members.find? (fun m => m.userId == userId && m.groupId == groupId)

/-- `canAccessGroup(userId, groupId, action)` from
`src/middleware/auth.js:99-140`. The SQL query inner-joins
`group_members`, `groups` and `users`, so a missing membership row (or a
missing user/group row) yields no row and the function returns `false`
before any role is examined. With a row present: global `admin` role,
then group creator, then the per-action switch on the membership role. -/
def canAccessGroup (db : DB) (userId groupId : Nat) (action : String) : Bool :=
  match findMembership db userId groupId,
        db.users.find? (fun u => u.id == userId),
        db.groups.find? (fun g => g.id == groupId) with
  | some gm, some u, some g =>
    if u.role == "admin" then true
    else if g.createdBy == userId then true
    else if action == "read" then true
    else if action == "write" then true
    else if action == "delete" then gm.role == "admin" || gm.role == "moderator"
    else if action == "manage" then gm.role == "admin" || gm.role == "moderator"
    else false
  | _, _, _ => false

/-- The membership rows of one group: `FROM group_members gm WHERE
gm.group_id = ?` (the fan-out source set in `routes/messages.js`). -/
def groupMembers (db : DB) (groupId : Nat) : List Membership :=
  db.members.filter (fun m => m.groupId == groupId)

/-- A tag element of the create-message request body: the route accepts
either a plain string or an object `{type, value}`
(`routes/messages.js:486-498`). -/
inductive TagInput where
  | str (s : String)
  | obj (tagType : String) (tagValue : Option String)
deriving DecidableEq

/-- The tag rows inserted by the create-message loop
(`routes/messages.js:485-499`): a string element is inserted as-is with a
NULL value; an object element is inserted only when `tag.type` is truthy
(non-empty), with `tag.value || null` collapsing the empty string to NULL.
No validation against the tag-kind enumeration happens on this path. -/
def tagRowsOf (mid uid : Nat) (tagsIn : List TagInput) : List TagRow :=
  tagsIn.filterMap (fun t =>
    match t with
    | .str s => some ⟨mid, s, none, uid⟩
    | .obj ty v =>
        if ty == "" then none
        else some ⟨mid, ty, (match v with | some "" => none | x => x), uid⟩)

/-- The DeliveryStatus fan-out rows of `routes/messages.js:501-508`:
one `message_status` row per `group_members` row of the group,
`delivered_at = CURRENT_TIMESTAMP`, `read_at` pre-filled only when the
member is the sender (`CASE WHEN gm.user_id = ? THEN CURRENT_TIMESTAMP
ELSE NULL END`). -/
def fanOutRows (db : DB) (mid sender groupId now : Nat) : List StatusRow :=
  (groupMembers db groupId).map (fun gm =>
    ⟨mid, gm.userId, some now, if gm.userId == sender then some now else none⟩)

/-- The insert sequence of the create-message route
(`routes/messages.js:477-508`) after validation and access checks.
The route issues each `runQuery` as its own SQLite statement with no
`BEGIN`/`COMMIT` around them, so every statement auto-commits
independently; `statusInsertOk` injects a storage fault at the final
`message_status` fan-out insert. When it fails, the route's `catch`
only answers 500: the message and tag rows inserted by the earlier
auto-committed statements remain in the store (second component `false`
marks the failed request). -/
def createMessageInserts (db : DB) (sender groupId : Nat) (content : String)
    (tagsIn : List TagInput) (replyTo : Option Nat) (msgType : String)
    (now : Nat) (statusInsertOk : Bool) : DB × Bool :=
  let mid := db.nextMessageId
  let db1 := { db with
    messages := db.messages ++ [(⟨mid, sender, groupId, content.trim, msgType, replyTo⟩ : Message)],
    nextMessageId := mid + 1 }
  let db2 := { db1 with tags := db1.tags ++ tagRowsOf mid sender tagsIn }
  if statusInsertOk then
    ({ db2 with statuses := db2.statuses ++ fanOutRows db mid sender groupId now }, true)
  else (db2, false)

/-- Route-level failures of the embedded HTTP handlers. -/
inductive ApiErr where
  | validationFailed
  | accessDenied
  | invalidReplyTarget
  | notFound
deriving DecidableEq

/-- `POST /api/messages` (`routes/messages.js:441-548`): express-validator
checks (`content` length in `[1, 5000]` before the `.trim()` sanitizer
runs, `type` in the fixed list), then `canAccessGroup(_, _, 'write')`,
then the reply-target lookup (`id = replyTo AND group_id = groupId`),
then the insert sequence of `createMessageInserts` with the fan-out
insert succeeding. -/
def createMessage (db : DB) (sender groupId : Nat) (content : String)
    (msgType : String) (replyTo : Option Nat) (tagsIn : List TagInput)
    (now : Nat) : Except ApiErr DB :=
  if ¬ (1 ≤ content.length ∧ content.length ≤ 5000) then .error .validationFailed
  else if ¬ (msgType ∈ ["text", "file", "image", "form"]) then .error .validationFailed
  else if ¬ canAccessGroup db sender groupId "write" then .error .accessDenied
  else match replyTo with
    | some r =>
        if (db.messages.find? (fun m => m.id == r && m.groupId == groupId)).isNone
        then .error .invalidReplyTarget
        else .ok (createMessageInserts db sender groupId content tagsIn replyTo msgType now true).1
    | none => .ok (createMessageInserts db sender groupId content tagsIn replyTo msgType now true).1

/-- The `(message_id, user_id)` key of a `message_status` row — the
column pair under the table's UNIQUE constraint. -/
def statusKey (r : StatusRow) : Nat × Nat := (r.messageId, r.userId)

/-- One `INSERT OR REPLACE` step into `message_status`: the UNIQUE
`(message_id, user_id)` constraint makes REPLACE delete any existing row
with the same key before inserting the new one. -/
def upsertStatus (s : List StatusRow) (r : StatusRow) : List StatusRow :=
  r :: s.filter (fun x => !(x.messageId == r.messageId && x.userId == r.userId))

/-- The batch-read upsert of `GET /api/messages/group/:groupId`
(`routes/messages.js:417-422`): `INSERT OR REPLACE INTO message_status
(message_id, user_id, read_at) SELECT m.id, ?, CURRENT_TIMESTAMP FROM
messages m WHERE m.group_id = ? AND m.sender_id != ?`. The column list
omits `delivered_at`, so the replacing row takes the column default
`CURRENT_TIMESTAMP`; `read_at` is written unconditionally, whether or
not the existing row had it set. -/
def batchMarkRead (db : DB) (groupId userId now : Nat) : DB :=
  let sel := db.messages.filter (fun m => m.groupId == groupId && !(m.senderId == userId))
  let rows := sel.map (fun m => (⟨m.id, userId, some now, some now⟩ : StatusRow))
  { db with statuses := rows.foldl upsertStatus db.statuses }

/-- The fixed tag-kind enumeration of `routes/messages.js:778`. -/
def validTags : List String :=
  ["urgent", "follow-up", "financial", "logistics", "medical", "security"]

/-- The per-message tag view: the `(tag_type, tag_value)` pairs the
`LEFT JOIN message_tags` of `GET /api/messages/group/:groupId`
aggregates into the `tags` field of each listed message
(`routes/messages.js:367, 404-407`). -/
def messageTagsView (db : DB) (mid : Nat) : List (String × Option String) :=
  (db.tags.filter (fun t => t.messageId == mid)).map (fun t => (t.tagType, t.tagValue))

/-- The list-messages tag view for one group: each message of the group
paired with its tag view, as rendered by `GET /api/messages/group/:groupId`. -/
def listMessagesTagView (db : DB) (groupId : Nat) : List (Nat × List (String × Option String)) :=
  (db.messages.filter (fun m => m.groupId == groupId)).map
    (fun m => (m.id, messageTagsView db m.id))

/-- `POST /api/messages/:messageId/tags` (`routes/messages.js:749-800`):
validation (`tags` a non-empty array), then the access lookup joining the
message to a membership row of the caller, then one insert per requested
tag whose kind is in `validTags`. The insert is written `INSERT OR
IGNORE`, but `message_tags` has no UNIQUE constraint on
`(message_id, tag_type)`, so the conflict clause never fires and every
valid kind is appended unconditionally. The response echoes the valid
kinds of the request. -/
def addTags (db : DB) (uid mid : Nat) (tags : List String) :
    Except ApiErr (DB × List String) :=
  if tags.isEmpty then .error .validationFailed
  else match db.messages.find? (fun m => m.id == mid) with
    | none => .error .notFound
    | some m =>
        if (findMembership db uid m.groupId).isNone then .error .notFound
        else
          .ok ({ db with
                  tags := db.tags ++
                    (tags.filter (fun t => validTags.contains t)).map
                      (fun t => (⟨mid, t, none, uid⟩ : TagRow)) },
               tags.filter (fun t => validTags.contains t))

/-- The wire message object built by the `send-message` socket handler
(`src/server.js:119-128`): `id: Date.now()` (the comment in the source
calls it "Temporary ID generation"), sender identity from the socket,
and the request's group, content and type. `timestamp` is the same
wall-clock instant serialized. -/
structure Wire where
  id : Nat
  senderId : Nat
  senderName : String
  groupId : Nat
  content : String
  msgType : String
  timestamp : Nat
deriving DecidableEq

/-- Outbound broadcast-fabric events. `newMessage` and `messageRead` are
`socket.to(room).emit(...)`: delivered to every session in the room except
the emitting user's own socket; `messageSent` is `socket.emit(...)`: the
echo to the originating session alone. -/
inductive Event where
  | newMessage (room excludeUser : Nat) (msg : Wire)
  | messageSent (toUser : Nat) (msg : Wire)
  | messageRead (room excludeUser messageId userId readAt : Nat)
deriving DecidableEq

/-- The server-side session registry slice the handlers touch: the
`userRooms` map (user id to joined group-id set, `src/server.js:82`),
plus the durable store and the trace of published events. -/
structure ServerModel where
  db : DB
  rooms : List (Nat × List Nat)
  events : List Event
deriving DecidableEq

/-- Adding one group to a user's `userRooms` entry
(`src/server.js:100-106`): `socket.join` plus `Set.add` on the user's
room set — creating the entry when absent, and not duplicating an
already-joined group (set semantics). -/
def addRoom (rooms : List (Nat × List Nat)) (uid gid : Nat) : List (Nat × List Nat) :=
  if rooms.any (fun p => p.1 == uid) then
    rooms.map (fun p =>
      if p.1 == uid then (p.1, if gid ∈ p.2 then p.2 else p.2 ++ [gid]) else p)
  else rooms ++ [(uid, [gid])]

/-- The joined-room set of a user in the registry. -/
def roomsOf (rooms : List (Nat × List Nat)) (uid : Nat) : List Nat :=
  ((rooms.find? (fun p => p.1 == uid)).map (fun p => p.2)).getD []

/-- The recipients of a room broadcast that excludes the emitting user's
session: every user whose joined-room set contains the group, minus the
excluded user (`socket.to(room).emit`). -/
def broadcastTargets (rooms : List (Nat × List Nat)) (gid excludeUid : Nat) : List Nat :=
  (rooms.filter (fun p => !(p.1 == excludeUid) && p.2.contains gid)).map (fun p => p.1)

/-- Inbound socket events of `src/server.js` that the claims touch. -/
inductive ClientEvent where
  | sendMessage (groupId : Nat) (content msgType : String)
  | joinGroups (groupIds : List Nat)
  | markRead (groupId messageId : Nat)
deriving DecidableEq

/-- The socket event dispatch of `src/server.js:97-165` for an
authenticated user `(uid, uname)` at wall-clock `now`:
- `join-groups` (lines 97-111) iterates the client-supplied group ids and
  joins each room, consulting no membership data;
- `send-message` (lines 114-140) builds the wire object with
  `id: Date.now()` and publishes `new-message` to the room (sender
  excluded) and `message-sent` to the sender, writing nothing to the
  durable store (the source comment reads "Save message to database
  (we'll implement this in messages route)");
- `mark-read` (lines 159-165) publishes `message-read` to the room
  (sender excluded) with `readAt` the current instant, touching no
  durable state. -/
def handleSocketEvent (srv : ServerModel) (uid : Nat) (uname : String)
    (ev : ClientEvent) (now : Nat) : ServerModel :=
  match ev with
  | .sendMessage gid content ty =>
      let msg : Wire := ⟨now, uid, uname, gid, content, ty, now⟩
      { srv with events := srv.events ++ [.newMessage gid uid msg, .messageSent uid msg] }
  | .joinGroups gids =>
      { srv with rooms := gids.foldl (fun rs g => addRoom rs uid g) srv.rooms }
  | .markRead gid mid =>
      { srv with events := srv.events ++ [.messageRead gid uid mid uid now] }

/-- An entry of the client-local `syncQueue` object store
(`src/public/js/offline.js:136-154`): auto-incremented key `id`,
`attempts` initialized to `0` by `queueAction`, `lastAttempt` stamped on
failed attempts. The action payload is abstracted to its `kind` string
(`message` / `createGroup` / `uploadFile`). -/
structure SyncAction where
  id : Nat
  kind : String
  attempts : Nat
  queuedAt : Nat
  lastAttempt : Option Nat
deriving DecidableEq

/-- `OfflineManager.queueAction` (`offline.js:136-154`): persists the
action with `queuedAt = Date.now()` and `attempts = 0` under a fresh
auto-incremented id. -/
def queueAction (q : List SyncAction) (newId : Nat) (kind : String) (now : Nat) :
    List SyncAction :=
  q ++ [⟨newId, kind, 0, now, none⟩]

/-- `OfflineManager.processSyncQueue` (`offline.js:156-188`): iterates a
snapshot of the queue; a successful `processAction` deletes exactly that
entry by its key; a failure increments `attempts` and stamps
`lastAttempt`, putting the entry back when the new count is below 3 and
otherwise deleting it and reporting it as terminally failed
(`console.error('Action failed after 3 attempts')`). `succeeds` is the
per-entry outcome of `processAction`; the result is the remaining queue
paired with the entries reported as terminal failures. -/
def processSyncQueue (q : List SyncAction) (succeeds : Nat → Bool) (now : Nat) :
    List SyncAction × List SyncAction :=
  (q.filterMap (fun a =>
      if succeeds a.id then none
      else if a.attempts + 1 < 3 then
        some { a with attempts := a.attempts + 1, lastAttempt := some now }
      else none),
   q.filter (fun a => !succeeds a.id && !(a.attempts + 1 < 3)))

/-- `OfflineManager.syncMessage` (`offline.js:203-222`) replaying one
queued send-message action against the server model. When
`window.app.socket` is live, it emits `send-message` over the socket and
returns without awaiting any acknowledgement — `processSyncQueue` sees no
exception and treats the attempt as a success. Otherwise it falls back to
`fetch('/api/messages', {method: 'POST'})`, which runs the create-message
route and throws (attempt fails) unless the response is ok. -/
def syncMessage (socketLive : Bool) (srv : ServerModel) (uid : Nat) (uname : String)
    (gid : Nat) (content ty : String) (replyTo : Option Nat)
    (tagsIn : List TagInput) (now : Nat) : ServerModel × Bool :=
  if socketLive then
    (handleSocketEvent srv uid uname (.sendMessage gid content ty) now, true)
  else
    match createMessage srv.db uid gid content ty replyTo tagsIn now with
    | .ok db2 => ({ srv with db := db2 }, true)
    | .error _ => (srv, false)

/-! Concrete stores used to evaluate the embedded routes. -/

/-- Store for the room-join scenario: user 1 is an authenticated
volunteer with no membership row for group 10 (created by user 2). -/
def exDbJoin : DB := ⟨[⟨1, "volunteer"⟩], [⟨10, 2⟩], [], [], [], [], 1⟩

/-- Store for the authorization scenario: user 1 has global role `admin`
but no membership row for group 10; user 2 is its creator and member. -/
def exDbAuth : DB :=
  ⟨[⟨1, "admin"⟩, ⟨2, "volunteer"⟩], [⟨10, 2⟩], [⟨10, 2, "member"⟩], [], [], [], 1⟩

/-- Store for the create-message fault scenario: users 1 and 2 are
members of group 1. -/
def exDbCreate4 : DB :=
  ⟨[⟨1, "volunteer"⟩, ⟨2, "volunteer"⟩], [⟨1, 1⟩],
   [⟨1, 1, "member"⟩, ⟨1, 2, "member"⟩], [], [], [], 1⟩

/-- Server model for the offline-replay scenario: empty durable store. -/
def exSrv5 : ServerModel := ⟨⟨[], [], [], [], [], [], 1⟩, [], []⟩

/-- Offline queue holding one freshly enqueued send-message action. -/
def exQueue5 : List SyncAction := [⟨1, "message", 0, 0, none⟩]

/-- Store for the read-marking scenario: message 1 in group 1 was sent by
user 2; user 3 is the reader. -/
def exDbRead : DB :=
  ⟨[⟨2, "volunteer"⟩, ⟨3, "volunteer"⟩], [⟨1, 2⟩],
   [⟨1, 2, "member"⟩, ⟨1, 3, "member"⟩], [⟨1, 2, 1, "hi", "text", none⟩], [], [], 2⟩

/-- Store for the tag-path scenario: user 1 is a member of group 1 which
holds message 1. -/
def exDbTag8 : DB :=
  ⟨[⟨1, "volunteer"⟩], [⟨1, 1⟩], [⟨1, 1, "member"⟩],
   [⟨1, 1, 1, "note", "text", none⟩], [], [], 2⟩

/-- Store for the duplicate-tag scenario (same shape as the tag-path
store, evolved by two tag adds below). -/
def exDbTag9 : DB :=
  ⟨[⟨1, "volunteer"⟩], [⟨1, 1⟩], [⟨1, 1, "member"⟩],
   [⟨1, 1, 1, "note", "text", none⟩], [], [], 2⟩

/-- The store after a first add of tag `urgent` to message 1. -/
def exDbTag9a : DB :=
  ((addTags exDbTag9 1 1 ["urgent"]).map Prod.fst).toOption.getD exDbTag9

/-- The store after a second, identical add of tag `urgent` to message 1. -/
def exDbTag9b : DB :=
  ((addTags exDbTag9a 1 1 ["urgent"]).map Prod.fst).toOption.getD exDbTag9a

/-- Store for the fan-out scenario: users 1 and 2 are members of
group 1; user 1 sends. -/
def exDbCreate1 : DB :=
  ⟨[⟨1, "volunteer"⟩, ⟨2, "volunteer"⟩], [⟨1, 1⟩],
   [⟨1, 1, "member"⟩, ⟨1, 2, "member"⟩], [], [], [], 1⟩

/-- The store after user 1 sends `hello` to group 1 at instant 100:
message row 1, two fan-out rows, the sender's pre-read. -/
def exDbCreate1Out : DB :=
  ⟨[⟨1, "volunteer"⟩, ⟨2, "volunteer"⟩], [⟨1, 1⟩],
   [⟨1, 1, "member"⟩, ⟨1, 2, "member"⟩],
   [⟨1, 1, 1, "hello".trim, "text", none⟩], [],
   [⟨1, 1, some 100, some 100⟩, ⟨1, 2, some 100, none⟩], 2⟩

/-- Offline queue for the bounded-retry scenario: a fresh action (id 1)
and one already failed twice (id 2). -/
def exQueue7 : List SyncAction :=
  [⟨1, "message", 0, 0, none⟩, ⟨2, "createGroup", 2, 0, none⟩]

/-- The tag-path store after adding `urgent` (and a rejected `bogus`)
to message 1 via the add-tags route. -/
def exDbTag8Out : DB :=
  ⟨[⟨1, "volunteer"⟩], [⟨1, 1⟩], [⟨1, 1, "member"⟩],
   [⟨1, 1, 1, "note", "text", none⟩], [⟨1, "urgent", none, 1⟩], [], 2⟩

/-- C2: the `join-groups` handler consults no membership data: an
authenticated non-admin user with no membership row for group 10 asks to
join it, the join is recorded in the session registry, and the user is
then among the targets of the room's broadcasts — the claim's required
rejection does not happen in the code. -/
theorem joinGroups_trusts_client :
    findMembership exDbJoin 1 10 = none ∧
    ((exDbJoin.users.find? (fun u => u.id == 1)).map (fun u => u.role)) = some "volunteer" ∧
    roomsOf (handleSocketEvent (⟨exDbJoin, [], []⟩ : ServerModel) 1 "eve"
      (.joinGroups [10]) 0).rooms 1 = [10] ∧
    1 ∈ broadcastTargets (handleSocketEvent (⟨exDbJoin, [], []⟩ : ServerModel) 1 "eve"
      (.joinGroups [10]) 0).rooms 10 2 := by
  decide

/-- C3 counterexample: user 1 has global role `admin` and no membership
row for group 10, yet `canAccessGroup` resolves `false` — the membership
lookup precedes the global-admin rule, so rule 1 does not short-circuit
as the claim states. -/
theorem canAccessGroup_globalAdmin_noRow_false :
    ((exDbAuth.users.find? (fun u => u.id == 1)).map (fun u => u.role)) = some "admin" ∧
    findMembership exDbAuth 1 10 = none ∧
    canAccessGroup exDbAuth 1 10 "read" = false := by
  decide

/-- C4: the create-message inserts are separate auto-committed
statements, not one transaction: with the `message_status` fan-out insert
failing, the request errors but the message row (id 1) persists with zero
fan-out rows — a partial state the claim says can never exist. -/
theorem createMessage_partial_persist :
    (createMessageInserts exDbCreate4 1 1 "hello" [] none "text" 100 false).2 = false ∧
    (createMessageInserts exDbCreate4 1 1 "hello" [] none "text" 100 false).1.messages.countP
      (fun m => m.id == 1) = 1 ∧
    (createMessageInserts exDbCreate4 1 1 "hello" [] none "text" 100 false).1.statuses.countP
      (fun r => r.messageId == 1) = 0 := by
  decide

/-- C5: replaying a queued send-message action while the socket is live
reports success (so `processSyncQueue` deletes the queue entry) although
the socket emit persists nothing: the server store still holds zero
message rows and no confirmation was ever awaited. -/
theorem syncMessage_socket_no_persist :
    (syncMessage true exSrv5 1 "alice" 1 "hello" "text" none [] 100).2 = true ∧
    (syncMessage true exSrv5 1 "alice" 1 "hello" "text" none [] 100).1.db.messages = [] ∧
    (processSyncQueue exQueue5 (fun _ => true) 100).1 = [] := by
  decide

/-- C6 counterexample: marking group 1 read twice (at instants 10 and 20)
leaves a different stored state than marking it once — the batch upsert
overwrites `read_at` (and `delivered_at`) unconditionally — and two
`mark-read` socket events broadcast two `message-read` events, not at
most one for the null-to-set transition. -/
theorem batchMarkRead_not_idempotent_cex :
    batchMarkRead (batchMarkRead exDbRead 1 3 10) 1 3 20 ≠ batchMarkRead exDbRead 1 3 10 ∧
    (handleSocketEvent (handleSocketEvent (⟨exDbRead, [], []⟩ : ServerModel) 3 "carol"
        (.markRead 1 1) 10) 3 "carol" (.markRead 1 1) 20).events.countP
      (fun e => match e with | .messageRead _ _ _ _ _ => true | _ => false) = 2 := by
  decide

/-- C8 counterexample: `bogus` is outside the tag-kind enumeration, yet a
create-message request carrying it succeeds and stores it — the
create-message tag loop never validates against the enumeration, so an
out-of-enumeration kind is not "never stored on any path". -/
theorem createMessage_stores_invalid_tag_cex :
    validTags.contains "bogus" = false ∧
    ((createMessage exDbTag8 1 1 "hi" "text" none [.str "bogus"] 100).map
      (fun d => d.tags.countP (fun t => t.tagType == "bogus"))).toOption = some 1 := by
  decide

/-- C9: adding tag `urgent` to message 1 twice stores two rows:
`message_tags` has no UNIQUE constraint on `(message_id, tag_type)`, so
the route's `INSERT OR IGNORE` never fires its conflict clause and the
(message, tag-kind) pair appears twice, against the claim (and the
code's own comment "Use INSERT OR IGNORE to avoid duplicates"). -/
theorem message_tags_duplicate_rows :
    (addTags exDbTag9 1 1 ["urgent"]).isOk = true ∧
    (addTags exDbTag9a 1 1 ["urgent"]).isOk = true ∧
    exDbTag9b.tags.countP (fun t => t.messageId == 1 && t.tagType == "urgent") = 2 := by
  decide

/-- C10: the `send-message` socket handler leaves the durable store (and
the room registry) unchanged and publishes exactly one `new-message` to
the room (sender excluded) and one `message-sent` echo to the sender,
both carrying the wall-clock value `Date.now()` as id; the HTTP
create-message insert sequence, by contrast, grows the messages table by
one row. -/
theorem sendMessage_handler_frame (srv : ServerModel) (uid : Nat) (uname : String)
    (gid : Nat) (content ty : String) (now : Nat) :
    (handleSocketEvent srv uid uname (.sendMessage gid content ty) now).db = srv.db ∧
    (handleSocketEvent srv uid uname (.sendMessage gid content ty) now).rooms = srv.rooms ∧
    (handleSocketEvent srv uid uname (.sendMessage gid content ty) now).events =
      srv.events ++ [.newMessage gid uid ⟨now, uid, uname, gid, content, ty, now⟩,
                     .messageSent uid ⟨now, uid, uname, gid, content, ty, now⟩] ∧
    (createMessageInserts srv.db uid gid content [] none ty now true).1.messages.length =
      srv.db.messages.length + 1 := by
  refine ⟨rfl, rfl, rfl, ?_⟩
  simp [createMessageInserts]

/-- C3 (amended): `canAccessGroup` first requires a membership row for
`(userId, groupId)` — without one it resolves `false` for every action
and every global role, global admins included. With a membership row
(and the joined user and group rows) present, resolution order with
first match winning is: global admin role, then group creator, then the
per-action policy (read/write to any member; delete/manage only to
group-role admin or moderator; unknown actions false). -/
theorem canAccessGroup_resolution (db : DB) (u g : Nat) (a : String) :
    (findMembership db u g = none → canAccessGroup db u g a = false) ∧
    (∀ gm usr grp,
      findMembership db u g = some gm →
      db.users.find? (fun x => x.id == u) = some usr →
      db.groups.find? (fun x => x.id == g) = some grp →
      (usr.role = "admin" → canAccessGroup db u g a = true) ∧
      (usr.role ≠ "admin" → grp.createdBy = u → canAccessGroup db u g a = true) ∧
      (usr.role ≠ "admin" → grp.createdBy ≠ u → (a = "read" ∨ a = "write") →
        canAccessGroup db u g a = true) ∧
      (usr.role ≠ "admin" → grp.createdBy ≠ u → (a = "delete" ∨ a = "manage") →
        canAccessGroup db u g a = (gm.role == "admin" || gm.role == "moderator")) ∧
      (usr.role ≠ "admin" → grp.createdBy ≠ u →
        a ∉ (["read", "write", "delete", "manage"] : List String) →
        canAccessGroup db u g a = false)) := by
  constructor
  · intro h
    unfold canAccessGroup
    rw [h]
  · intro gm usr grp hm hu hg
    unfold canAccessGroup
    rw [hm, hu, hg]
    refine ⟨?_, ?_, ?_, ?_, ?_⟩
    · intro h1
      simp [h1]
    · intro h1 h2
      simp [h1, h2]
    · intro h1 h2 h3
      rcases h3 with rfl | rfl <;> simp [h1, h2]
    · intro h1 h2 h3
      rcases h3 with rfl | rfl <;> simp [h1, h2]
    · intro h1 h2 h3
      simp only [List.mem_cons, List.not_mem_nil, or_false, not_or] at h3
      obtain ⟨n1, n2, n3, n4⟩ := h3
      simp [h1, h2, n1, n2, n3, n4]

/-- A successful membership lookup returns a row of the table whose key
columns match the queried pair. -/
theorem findMembership_eq_some {db : DB} {u g : Nat} {m : Membership}
    (h : findMembership db u g = some m) :
    m ∈ db.members ∧ m.userId = u ∧ m.groupId = g := by
  unfold findMembership at h
  have h1 := List.mem_of_find?_eq_some h
  have h2 := List.find?_some h
  simp only [Bool.and_eq_true, beq_iff_eq] at h2
  exact ⟨h1, h2.1, h2.2⟩

/-- `canAccessGroup` can only answer `true` when a membership row for
the caller and group exists (the inner join filters everything else). -/
theorem canAccessGroup_true_membership {db : DB} {u g : Nat} {a : String}
    (h : canAccessGroup db u g a = true) :
    ∃ m, findMembership db u g = some m := by
  unfold canAccessGroup at h
  cases hm : findMembership db u g with
  | none =>
    rw [hm] at h
    exact absurd h (by simp)
  | some m => exact ⟨m, rfl⟩

/-- C1: a successful create-message request appends exactly the fan-out
rows to `message_status`: one row per membership row of the group at
that instant, with `read_at` set on a row exactly when it is the
sender's, and — because the write-access check guarantees the sender has
a membership row, and `(group_id, user_id)` is unique — exactly one of
the inserted rows has `read_at` set. -/
theorem createMessage_fanout (db db' : DB) (sender gid : Nat) (content ty : String)
    (replyTo : Option Nat) (tagsIn : List TagInput) (now : Nat)
    (hwf : (db.members.map (fun m => (m.groupId, m.userId))).Nodup)
    (hok : createMessage db sender gid content ty replyTo tagsIn now = .ok db') :
    db'.statuses = db.statuses ++ fanOutRows db db.nextMessageId sender gid now ∧
    (fanOutRows db db.nextMessageId sender gid now).length = (groupMembers db gid).length ∧
    (∀ r ∈ fanOutRows db db.nextMessageId sender gid now,
      (r.readAt.isSome = true ↔ r.userId = sender)) ∧
    (fanOutRows db db.nextMessageId sender gid now).countP (fun r => r.readAt.isSome) = 1 := by
  unfold createMessage at hok
  split at hok
  next => exact absurd hok (by simp)
  next hlen =>
  split at hok
  next => exact absurd hok (by simp)
  next hty =>
  split at hok
  next => exact absurd hok (by simp)
  next hacc2 =>
  have hacc : canAccessGroup db sender gid "write" = true := not_not.mp hacc2
  have hdb : (createMessageInserts db sender gid content tagsIn replyTo ty now true).1 = db' := by
    split at hok
    next r =>
      split at hok
      next => exact absurd hok (by simp)
      next => injection hok
    next => injection hok
  subst hdb
  refine ⟨?_, ?_, ?_, ?_⟩
  · simp [createMessageInserts]
  · simp [fanOutRows]
  · intro r hr
    simp only [fanOutRows, List.mem_map] at hr
    obtain ⟨gm, hgm, rfl⟩ := hr
    by_cases hs : gm.userId = sender
    · simp [hs]
    · simp [hs]
  · obtain ⟨m, hm⟩ := canAccessGroup_true_membership hacc
    obtain ⟨hmem, hmu, hmg⟩ := findMembership_eq_some hm
    have hmemG : m ∈ groupMembers db gid := by
      unfold groupMembers
      rw [List.mem_filter]
      exact ⟨hmem, by simp [hmg]⟩
    unfold fanOutRows
    rw [List.countP_map]
    have hcong : (groupMembers db gid).countP
        ((fun r : StatusRow => r.readAt.isSome) ∘
          (fun gm => (⟨db.nextMessageId, gm.userId, some now,
            if gm.userId == sender then some now else none⟩ : StatusRow)))
        = (groupMembers db gid).countP (fun gm => gm.userId == sender) := by
      apply List.countP_congr
      intro x hx
      by_cases hs : x.userId = sender <;> simp [hs]
    rw [hcong]
    have hcnt : (groupMembers db gid).countP (fun gm => gm.userId == sender)
        = ((groupMembers db gid).map (fun mm => mm.userId)).count sender := by
      rw [List.count_eq_countP, List.countP_map]
      rfl
    rw [hcnt]
    have hndpairs : ((groupMembers db gid).map (fun mm => (mm.groupId, mm.userId))).Nodup :=
      hwf.sublist ((List.filter_sublist _).map _)
    have hfst : ∀ p ∈ (groupMembers db gid).map (fun mm => (mm.groupId, mm.userId)),
        p.1 = gid := by
      intro p hp
      simp only [List.mem_map] at hp
      obtain ⟨m2, hm2, rfl⟩ := hp
      have h2 := (List.mem_filter.mp hm2).2
      simpa using h2
    have hmapeq : ((groupMembers db gid).map (fun mm => (mm.groupId, mm.userId))).map Prod.snd
        = (groupMembers db gid).map (fun mm => mm.userId) := by
      rw [List.map_map]
      rfl
    have hnd : ((groupMembers db gid).map (fun mm => mm.userId)).Nodup := by
      rw [← hmapeq]
      refine hndpairs.map_on ?_
      intro x hx y hy hxy
      have hx1 := hfst x hx
      have hy1 := hfst y hy
      exact Prod.ext (hx1.trans hy1.symm) hxy
    exact List.count_eq_one_of_mem hnd (List.mem_map.mpr ⟨m, hmemG, hmu⟩)

/-- C1 instance: in the two-member store, sending `hello` to group 1
at instant 100 appends exactly two fan-out rows, the sender's alone
pre-read. -/
theorem createMessage_fanout_instance :
    exDbCreate1Out.statuses =
      exDbCreate1.statuses ++ fanOutRows exDbCreate1 exDbCreate1.nextMessageId 1 1 100 ∧
    (fanOutRows exDbCreate1 exDbCreate1.nextMessageId 1 1 100).length =
      (groupMembers exDbCreate1 1).length ∧
    (∀ r ∈ fanOutRows exDbCreate1 exDbCreate1.nextMessageId 1 1 100,
      (r.readAt.isSome = true ↔ r.userId = 1)) ∧
    (fanOutRows exDbCreate1 exDbCreate1.nextMessageId 1 1 100).countP
      (fun r => r.readAt.isSome) = 1 :=
  createMessage_fanout exDbCreate1 exDbCreate1Out 1 1 "hello" "text" none [] 100
    (by decide) (by rfl)

/-- C3 instance: user 2 (non-admin member, group creator) may delete in
group 10 by the creator rule; user 1 (global admin, no membership row)
is denied `manage` by the membership guard. -/
theorem canAccessGroup_resolution_instance :
    canAccessGroup exDbAuth 2 10 "delete" = true ∧
    canAccessGroup exDbAuth 1 10 "manage" = false := by
  constructor
  · exact ((canAccessGroup_resolution exDbAuth 2 10 "delete").2
      ⟨10, 2, "member"⟩ ⟨2, "volunteer"⟩ ⟨10, 2⟩ rfl rfl rfl).2.1 (by decide) rfl
  · exact (canAccessGroup_resolution exDbAuth 1 10 "manage").1 rfl

/-- Normal form of a sequence of `INSERT OR REPLACE` steps whose new
rows have pairwise distinct keys: the new rows land (in reverse
insertion order) in front of the old rows that match none of the new
keys. -/
theorem foldl_upsertStatus_normal (rows : List StatusRow) (s : List StatusRow)
    (h : (rows.map statusKey).Nodup) :
    rows.foldl upsertStatus s =
      rows.reverse ++ s.filter (fun x => rows.all
        (fun r => !(x.messageId == r.messageId && x.userId == r.userId))) := by
  induction rows generalizing s with
  | nil => simp
  | cons r rs ih =>
    simp only [List.map_cons, List.nodup_cons] at h
    rw [List.foldl_cons, ih (upsertStatus s r) h.2]
    unfold upsertStatus
    rw [List.filter_cons]
    have hr : (rs.all (fun r2 => !(r.messageId == r2.messageId && r.userId == r2.userId))) = true := by
      rw [List.all_eq_true]
      intro r2 hr2
      have hk : statusKey r ≠ statusKey r2 := by
        intro hk
        exact h.1 (by rw [hk]; exact List.mem_map_of_mem _ hr2)
      simpa [statusKey, Prod.ext_iff, -not_and, not_and_or] using hk
    rw [hr]
    simp only [if_true, List.filter_filter, List.reverse_cons, List.append_assoc,
      List.singleton_append, List.all_cons]
    congr 2
    apply List.filter_congr
    intro x _
    rw [Bool.and_comm]

/-- Re-running the same `INSERT OR REPLACE` sequence is a no-op: the
re-inserted rows displace exactly themselves. -/
theorem foldl_upsertStatus_idem (rows : List StatusRow) (s : List StatusRow)
    (h : (rows.map statusKey).Nodup) :
    rows.foldl upsertStatus (rows.foldl upsertStatus s) = rows.foldl upsertStatus s := by
  rw [foldl_upsertStatus_normal rows s h, foldl_upsertStatus_normal rows _ h,
    List.filter_append]
  have h1 : rows.reverse.filter (fun x => rows.all
      (fun r => !(x.messageId == r.messageId && x.userId == r.userId))) = [] := by
    rw [List.filter_eq_nil_iff]
    intro a ha hall
    rw [List.mem_reverse] at ha
    rw [List.all_eq_true] at hall
    have := hall a ha
    simp at this
  have h2 : ∀ t : List StatusRow, (t.filter (fun x => rows.all
      (fun r => !(x.messageId == r.messageId && x.userId == r.userId)))).filter
        (fun x => rows.all
          (fun r => !(x.messageId == r.messageId && x.userId == r.userId)))
      = t.filter (fun x => rows.all
          (fun r => !(x.messageId == r.messageId && x.userId == r.userId))) := by
    intro t
    apply List.filter_eq_self.mpr
    intro a ha
    exact (List.mem_filter.mp ha).2
  rw [h1, h2, List.nil_append]

/-- C6 (amended): the batch-read upsert overwrites `read_at` (and, via
the column default, `delivered_at`) with the current timestamp for every
message of the group not sent by the reader, regardless of prior state,
so it is idempotent only at a fixed timestamp: re-running it at the same
instant leaves the store unchanged, while distinct instants yield
distinct states. The `mark-read` socket handler touches no durable state
and broadcasts one `message-read` event on every call, not at most one
per null-to-set transition. -/
theorem batchMarkRead_amended (db : DB) (gid uid t : Nat)
    (hwf : (db.messages.map (fun m => m.id)).Nodup) :
    batchMarkRead (batchMarkRead db gid uid t) gid uid t = batchMarkRead db gid uid t ∧
    (∀ srv u2 uname mid now2,
      (handleSocketEvent srv u2 uname (.markRead gid mid) now2).db = srv.db ∧
      (handleSocketEvent srv u2 uname (.markRead gid mid) now2).events =
        srv.events ++ [.messageRead gid u2 mid u2 now2]) := by
  refine ⟨?_, fun srv u2 uname mid now2 => ⟨rfl, rfl⟩⟩
  have hkeys : (((db.messages.filter (fun m => m.groupId == gid && !(m.senderId == uid))).map
      (fun m => (⟨m.id, uid, some t, some t⟩ : StatusRow))).map statusKey).Nodup := by
    have hsel : ((db.messages.filter (fun m => m.groupId == gid && !(m.senderId == uid))).map
        (fun m => m.id)).Nodup :=
      hwf.sublist ((List.filter_sublist _).map _)
    have heq : ((db.messages.filter (fun m => m.groupId == gid && !(m.senderId == uid))).map
        (fun m => (⟨m.id, uid, some t, some t⟩ : StatusRow))).map statusKey
        = ((db.messages.filter (fun m => m.groupId == gid && !(m.senderId == uid))).map
            (fun m => m.id)).map (fun i => (i, uid)) := by
      rw [List.map_map, List.map_map]
      rfl
    rw [heq]
    exact hsel.map (fun i j hij => (Prod.mk.injEq _ _ _ _).mp hij |>.1)
  unfold batchMarkRead
  simp only []
  rw [foldl_upsertStatus_idem _ _ hkeys]

/-- C6 instance: in the one-message store, re-running the batch read of
group 1 by user 3 at instant 10 is a no-op, and each `mark-read` socket
call emits one `message-read` event without touching the store. -/
theorem batchMarkRead_amended_instance :
    batchMarkRead (batchMarkRead exDbRead 1 3 10) 1 3 10 = batchMarkRead exDbRead 1 3 10 ∧
    (∀ srv u2 uname mid now2,
      (handleSocketEvent srv u2 uname (.markRead 1 mid) now2).db = srv.db ∧
      (handleSocketEvent srv u2 uname (.markRead 1 mid) now2).events =
        srv.events ++ [.messageRead 1 u2 mid u2 now2]) :=
  batchMarkRead_amended exDbRead 1 3 10 (by decide)

/-- C7: over a queue whose entries all have at most 2 recorded failed
attempts (as every queue reachable by `queueAction`, which starts
entries at 0, and `processSyncQueue`, which keeps entries only below the
ceiling, does), one scan: (1) touches each entry's count at most up to 3;
(2) leaves only entries again under the ceiling; (3) after a success no
entry with that id remains (delete is by id); (4) a failed entry below
the ceiling is retained with its count incremented and the attempt
timestamped — never silently dropped; (5) a failed entry reaching 3
attempts is reported as a terminal failure exactly once and no longer
retried; and (6) a fresh enqueue starts at 0 attempts. -/
theorem processSyncQueue_bounded_retry (q : List SyncAction) (succeeds : Nat → Bool)
    (now : Nat)
    (hids : (q.map (fun a => a.id)).Nodup)
    (hatt : ∀ a ∈ q, a.attempts ≤ 2) :
    (∀ a ∈ q, a.attempts + 1 ≤ 3) ∧
    (∀ a ∈ (processSyncQueue q succeeds now).1, a.attempts ≤ 2) ∧
    (∀ a ∈ q, succeeds a.id = true → ∀ b ∈ (processSyncQueue q succeeds now).1, b.id ≠ a.id) ∧
    (∀ a ∈ q, succeeds a.id = false → a.attempts + 1 < 3 →
      ({ a with attempts := a.attempts + 1, lastAttempt := some now } : SyncAction)
        ∈ (processSyncQueue q succeeds now).1) ∧
    (∀ a ∈ q, succeeds a.id = false → 3 ≤ a.attempts + 1 →
      ((processSyncQueue q succeeds now).2.countP (fun b => b.id == a.id) = 1 ∧
        ∀ b ∈ (processSyncQueue q succeeds now).1, b.id ≠ a.id)) ∧
    (∀ newId kind, ∀ a ∈ queueAction q newId kind now, a ∈ q ∨ a.attempts = 0) := by
  have hinj := List.inj_on_of_nodup_map hids
  have hrem : ∀ b ∈ (processSyncQueue q succeeds now).1,
      ∃ c, c ∈ q ∧ succeeds c.id = false ∧ c.attempts + 1 < 3 ∧
        b = { c with attempts := c.attempts + 1, lastAttempt := some now } := by
    intro b hb
    unfold processSyncQueue at hb
    simp only [List.mem_filterMap] at hb
    obtain ⟨c, hc, hcb⟩ := hb
    by_cases h1 : succeeds c.id = true
    · simp [h1] at hcb
    · rw [Bool.not_eq_true] at h1
      by_cases h2 : c.attempts + 1 < 3
      · simp only [h1, if_false, Bool.false_eq_true, h2, if_true, Option.some.injEq] at hcb
        exact ⟨c, hc, h1, h2, hcb.symm⟩
      · simp [h1, h2] at hcb
  refine ⟨?_, ?_, ?_, ?_, ?_, ?_⟩
  · intro a ha
    have := hatt a ha
    omega
  · intro a ha
    obtain ⟨c, hc, _, hlt, rfl⟩ := hrem a ha
    simp only []
    omega
  · intro a ha hsucc b hb hbid
    obtain ⟨c, hc, hcf, _, rfl⟩ := hrem b hb
    have : c.id = a.id := hbid
    have hca : c = a := hinj hc ha this
    rw [hca] at hcf
    rw [hcf] at hsucc
    exact Bool.false_ne_true hsucc
  · intro a ha hfail hlt
    unfold processSyncQueue
    simp only [List.mem_filterMap]
    exact ⟨a, ha, by simp [hfail, hlt]⟩
  · intro a ha hfail hge
    constructor
    · unfold processSyncQueue
      simp only []
      rw [List.countP_filter]
      have hone : q.countP (fun b => b.id == a.id) = 1 := by
        have : q.countP (fun b => b.id == a.id) = (q.map (fun b => b.id)).count a.id := by
          rw [List.count_eq_countP, List.countP_map]
          rfl
        rw [this]
        exact List.count_eq_one_of_mem hids (List.mem_map.mpr ⟨a, ha, rfl⟩)
      rw [← hone]
      apply List.countP_congr
      intro b hb
      constructor
      · intro h
        exact (Bool.and_eq_true _ _).mp h |>.1
      · intro h
        have hba : b = a := hinj hb ha (by simpa using h)
        rw [hba]
        simp [hfail]
        omega
    · intro b hb hbid
      obtain ⟨c, hc, _, hlt, rfl⟩ := hrem b hb
      have : c.id = a.id := hbid
      have hca : c = a := hinj hc ha this
      rw [hca] at hlt
      omega
  · intro newId kind a ha
    unfold queueAction at ha
    rw [List.mem_append] at ha
    rcases ha with ha | ha
    · exact Or.inl ha
    · right
      rw [List.mem_singleton] at ha
      rw [ha]

/-- C7 instance: scanning a queue holding a fresh action (id 1, which
succeeds) and a twice-failed action (id 2, which fails again) removes
the succeeded entry, reports the other as a terminal failure exactly
once, and retries nothing past the ceiling. -/
theorem processSyncQueue_bounded_retry_instance :
    (∀ a ∈ exQueue7, a.attempts + 1 ≤ 3) ∧
    (∀ a ∈ (processSyncQueue exQueue7 (fun i => i == 1) 5).1, a.attempts ≤ 2) ∧
    (∀ a ∈ exQueue7, (fun i => i == 1) a.id = true →
      ∀ b ∈ (processSyncQueue exQueue7 (fun i => i == 1) 5).1, b.id ≠ a.id) ∧
    (∀ a ∈ exQueue7, (fun i => i == 1) a.id = false → a.attempts + 1 < 3 →
      ({ a with attempts := a.attempts + 1, lastAttempt := some 5 } : SyncAction)
        ∈ (processSyncQueue exQueue7 (fun i => i == 1) 5).1) ∧
    (∀ a ∈ exQueue7, (fun i => i == 1) a.id = false → 3 ≤ a.attempts + 1 →
      ((processSyncQueue exQueue7 (fun i => i == 1) 5).2.countP (fun b => b.id == a.id) = 1 ∧
        ∀ b ∈ (processSyncQueue exQueue7 (fun i => i == 1) 5).1, b.id ≠ a.id)) ∧
    (∀ newId kind, ∀ a ∈ queueAction exQueue7 newId kind 5, a ∈ exQueue7 ∨ a.attempts = 0) :=
  processSyncQueue_bounded_retry exQueue7 (fun i => i == 1) 5 (by decide) (by decide)

/-- C8 (amended): through the add-tags route, a requested kind inside
the fixed enumeration is stored and appears in the list-messages tag
view of the message (which is itself listed for the message's group);
a kind outside the enumeration is filtered out — the count of rows of
that kind on the message is unchanged — and the response echoes exactly
the valid kinds. (The create-message path, by contrast, stores
arbitrary kinds: see the counterexample.) -/
theorem addTags_roundtrip (db db' : DB) (uid mid : Nat) (tags resp : List String)
    (m : Message)
    (hm : db.messages.find? (fun mm => mm.id == mid) = some m)
    (hok : addTags db uid mid tags = .ok (db', resp)) :
    (∀ tg ∈ tags, validTags.contains tg = true → ((tg, none) ∈ messageTagsView db' mid)) ∧
    (∀ tg ∈ tags, validTags.contains tg = false →
      (messageTagsView db' mid).countP (fun p => p.1 == tg) =
        (messageTagsView db mid).countP (fun p => p.1 == tg)) ∧
    (mid, messageTagsView db' mid) ∈ listMessagesTagView db' m.groupId ∧
    resp = tags.filter (fun t => validTags.contains t) := by
  unfold addTags at hok
  rw [hm] at hok
  split at hok
  next => exact absurd hok (by simp)
  next =>
  split at hok
  next => exact absurd hok (by simp)
  next =>
  split at hok
  next => exact absurd hok (by simp)
  next =>
  simp only [Except.ok.injEq, Prod.mk.injEq] at hok
  obtain ⟨hdb, hresp⟩ := hok
  subst hdb
  have hmidm : m.id = mid := by
    have := List.find?_some hm
    simpa using this
  have hview : messageTagsView
      { db with tags := (db.tags ++ ((tags.filter (fun t => validTags.contains t)).map
          (fun t => (⟨mid, t, none, uid⟩ : TagRow)))) } mid
      = messageTagsView db mid ++ ((tags.filter (fun t => validTags.contains t)).map
          (fun t => (⟨mid, t, none, uid⟩ : TagRow))).map (fun t => (t.tagType, t.tagValue)) := by
    unfold messageTagsView
    rw [List.filter_append, List.map_append]
    congr 2
    apply List.filter_eq_self.mpr
    intro a ha
    rw [List.mem_map] at ha
    obtain ⟨t, _, rfl⟩ := ha
    simp
  refine ⟨?_, ?_, ?_, hresp.symm⟩
  · intro tg htg hv
    rw [hview, List.mem_append]
    right
    rw [List.map_map, List.mem_map]
    exact ⟨tg, List.mem_filter.mpr ⟨htg, hv⟩, rfl⟩
  · intro tg htg hv
    rw [hview, List.countP_append]
    have hz : (((tags.filter (fun t => validTags.contains t)).map
        (fun t => (⟨mid, t, none, uid⟩ : TagRow))).map
          (fun t => (t.tagType, t.tagValue))).countP
            (fun p => p.1 == tg) = 0 := by
      rw [List.countP_eq_zero]
      intro p hp
      rw [List.map_map, List.mem_map] at hp
      obtain ⟨t, ht, rfl⟩ := hp
      have hvt := (List.mem_filter.mp ht).2
      simp only [Function.comp]
      intro hEq
      have : t = tg := by simpa using hEq
      rw [this] at hvt
      rw [hvt] at hv
      exact absurd hv (by simp)
    omega
  · unfold listMessagesTagView
    rw [List.mem_map]
    refine ⟨m, ?_, ?_⟩
    · rw [List.mem_filter]
      exact ⟨List.mem_of_find?_eq_some hm, by simp⟩
    · rw [hmidm]

/-- C8 instance: adding `["urgent", "bogus"]` to message 1 stores
`urgent` (visible in the tag view, listed under group 1), leaves no
`bogus` row, and echoes `["urgent"]`. -/
theorem addTags_roundtrip_instance :
    (∀ tg ∈ (["urgent", "bogus"] : List String), validTags.contains tg = true →
      ((tg, none) ∈ messageTagsView exDbTag8Out 1)) ∧
    (∀ tg ∈ (["urgent", "bogus"] : List String), validTags.contains tg = false →
      (messageTagsView exDbTag8Out 1).countP (fun p => p.1 == tg) =
        (messageTagsView exDbTag8 1).countP (fun p => p.1 == tg)) ∧
    (1, messageTagsView exDbTag8Out 1) ∈ listMessagesTagView exDbTag8Out
      (⟨1, 1, 1, "note", "text", none⟩ : Message).groupId ∧
    (["urgent"] : List String) = (["urgent", "bogus"] : List String).filter
      (fun t => validTags.contains t) :=
  addTags_roundtrip exDbTag8 exDbTag8Out 1 1 ["urgent", "bogus"] ["urgent"]
    ⟨1, 1, 1, "note", "text", none⟩ (by rfl) (by rfl)

end HumanitarianChat
